import Mathlib

/-
Shallow embedding of the GCE metadata-backed credential resolution code
(the `gcpcredentials` package of the excerpt: `OnGCEVM`, `HasStorageScope`,
the three `Provide*` credential providers, `readURL`,
`ReadDockerConfigFileFromURL` and `runWithBackoff`), together with theorems
checking the specification's claims about it.

Modelling conventions:
- Go byte slices and strings are modelled as Lean `String`s whose
  characters stand for bytes (all data in the claims is ASCII, where the
  two notions of length agree); Go string helpers (`strings.TrimSpace`,
  `strings.Split`, `strings.HasPrefix`) are re-implemented on `List Char`
  so that every definition evaluates inside the kernel.
- The network is a `World`: a function from (url, header) to the outcome
  of one HTTP GET.  `readURL` is a pure function of the `World`.
- Each provider returns, next to its `DockerConfig`, the list of HTTP
  requests it issued, in order, each with the header it carried.
- `encoding/json.Unmarshal` is modelled by small concrete parsers for the
  three target shapes the source unmarshals into (a JSON array of strings,
  a flat object with string fields, and a map from host to credential
  entry).  They accept the common JSON spellings (whitespace, `null`,
  case-insensitive struct field names) and reject string escapes, which no
  claim depends on.
-/

namespace Gcpcredentials

/-! ## Go string primitives -/

/-- Whitespace as `strings.TrimSpace` (ASCII part of `unicode.IsSpace`)
and the JSON scanner treat it. -/
def goIsSpace (c : Char) : Bool :=
  c == ' ' || c == '\t' || c == '\n' || c == '\x0b' || c == '\x0c' || c == '\r'

/-- `strings.TrimSpace` on a character list. -/
def trimChars (cs : List Char) : List Char :=
  ((cs.dropWhile goIsSpace).reverse.dropWhile goIsSpace).reverse

/-- `strings.TrimSpace`. -/
def goTrimSpace (s : String) : String :=
  String.mk (trimChars s.data)

/-- `strings.HasPrefix s pre`. -/
def goHasPre (s pre : String) : Bool :=
  pre.data.isPrefixOf s.data

/-- Worker for `goSplit`: split `cs` at every occurrence of the non-empty
separator `sep`, scanning left to right (the semantics of
`strings.Split`).  `fuel` bounds the recursion; callers pass the input
length plus one, which is always enough. -/
def goSplitAux (sep : List Char) : List Char → Nat → List (List Char)
  | cs, 0 => [cs]
  | cs, fuel + 1 =>
    if sep.isPrefixOf cs then
      [] :: goSplitAux sep (cs.drop sep.length) fuel
    else
      match cs with
      | [] => [[]]
      | c :: rest =>
        match goSplitAux sep rest fuel with
        | [] => [[c]]
        | h :: t => (c :: h) :: t

/-- `strings.Split s sep` for a non-empty separator. -/
def goSplit (s sep : String) : List String :=
  (goSplitAux sep.data s.data (s.data.length + 1)).map String.mk

/-- ASCII lower-casing, used for Go's case-insensitive JSON field match. -/
def asciiLower (c : Char) : Char :=
  if 'A' ≤ c && c ≤ 'Z' then Char.ofNat (c.toNat + 32) else c

/-- ASCII lower-casing of a string. -/
def lowerStr (s : String) : String :=
  String.mk (s.data.map asciiLower)

/-! ## HTTP model -/

/-- The only header value the source ever builds:
`Metadata-Flavor: Google`. -/
structure HTTPHeader where
  metadataFlavor : List String
deriving DecidableEq, Repr

/-- `metadataHeader` from the source. -/
def metadataHeader : HTTPHeader :=
  ⟨["Google"]⟩

/-- One GET request as issued by `readURL`: the url and the header the
request carried (`none` models passing a nil `*http.Header`). -/
structure HTTPRequest where
  url : String
  header : Option HTTPHeader
deriving DecidableEq, Repr

/-- Outcome of one HTTP GET against the environment: either the transport
fails (`client.Do` returns an error) or a response with a status code and
a body arrives. -/
inductive FetchResult where
  | transportError
  | response (status : Nat) (body : String)
deriving DecidableEq, Repr

/-- The environment a run executes against: what one GET of a given url
with a given header returns. -/
structure World where
  fetch : String → Option HTTPHeader → FetchResult

/-- The errors `readURL` can return: a transport/read failure, the typed
`&HTTPError{StatusCode, URL}` of the source, and
`errors.New ("the read limit is reached")`. -/
inductive ReadError where
  | network
  | httpStatus (code : Nat) (url : String)
  | readLimitReached
deriving DecidableEq, Repr

instance {ε α : Type} [DecidableEq ε] [DecidableEq α] : DecidableEq (Except ε α)
  | .error a, .error b =>
    if h : a = b then isTrue (by rw [h])
    else isFalse (fun hc => h (Except.error.inj hc))
  | .error _, .ok _ => isFalse (fun hc => Except.noConfusion hc)
  | .ok _, .error _ => isFalse (fun hc => Except.noConfusion hc)
  | .ok a, .ok b =>
    if h : a = b then isTrue (by rw [h])
    else isFalse (fun hc => h (Except.ok.inj hc))

/-! ## Constants of the source -/

def metadataURL : String := "http://metadata.google.internal./computeMetadata/v1/"

def metadataAttributes : String := metadataURL ++ "instance/attributes/"

def dockerConfigKey : String := metadataAttributes ++ "google-dockercfg"

def dockerConfigURLKey : String := metadataAttributes ++ "google-dockercfg-url"

def serviceAccounts : String := metadataURL ++ "instance/service-accounts/"

def metadataScopes : String := metadataURL ++ "instance/service-accounts/default/scopes"

def metadataToken : String := metadataURL ++ "instance/service-accounts/default/token"

def metadataEmail : String := metadataURL ++ "instance/service-accounts/default/email"

def storageScopePrefix : String := "https://www.googleapis.com/auth/devstorage"

def cloudPlatformScopePrefix : String := "https://www.googleapis.com/auth/cloud-platform"

def defaultServiceAccount : String := "default/"

/-- `containerRegistryUrls` from the source. -/
def containerRegistryUrls : List String :=
  ["container.cloud.google.com", "gcr.io", "*.gcr.io", "*.pkg.dev"]

/-- Modelled from the spec: the "maximum byte cap" that bounds a response
body ("reads the response body up to a maximum byte cap").  The constant
`maxReadLength` is referenced by `readURL` but its definition lies outside
the excerpt; the spec names no value, so the upstream 10 MiB is used.
Every theorem about the cap is stated relative to `maxReadLength`, so none
depends on the concrete value. -/
def maxReadLength : Nat := 10485760

/-! ## readURL (the Metadata Client) -/

/-- `readURL url client header` from the source.  `http.NewRequest` and
`client.Do` failures, and a read error from `ReadAll`, are the
`transportError` case.  The `io.LimitedReader` of the source starts with
`N = maxReadLength`; after `ReadAll`, `N ≤ 0` holds exactly when the body
held at least `maxReadLength` bytes, which the source turns into
`errors.New ("the read limit is reached")`. -/
def readURL (w : World) (url : String) (header : Option HTTPHeader) :
    Except ReadError String :=
  match w.fetch url header with
  | .transportError => .error .network
  | .response statusCode body =>
    if statusCode ≠ 200 then
      .error (.httpStatus statusCode url)
    else if maxReadLength ≤ body.length then
      .error .readLimitReached
    else
      .ok body

/-! ## JSON parsing (model of encoding/json.Unmarshal at the three
target types the source uses) -/

/-- Skip JSON whitespace. -/
def skipWs (cs : List Char) : List Char :=
  cs.dropWhile goIsSpace

/-- Parse a JSON string literal (no escape sequences). -/
def parseStringLit : List Char → Option (String × List Char)
  | '"' :: rest =>
    match rest.span (fun c => !(c == '"' || c == '\\')) with
    | (body, '"' :: tail) => some (String.mk body, tail)
    | _ => none
  | _ => none

/-- Parse a non-empty comma-separated sequence of JSON strings. -/
def parseStringItems : List Char → Nat → Option (List String × List Char)
  | _, 0 => none
  | cs, fuel + 1 =>
    match parseStringLit (skipWs cs) with
    | none => none
    | some (s, rest) =>
      match skipWs rest with
      | ',' :: rest2 =>
        match parseStringItems rest2 fuel with
        | none => none
        | some (l, r) => some (s :: l, r)
      | r => some ([s], r)

/-- `json.Unmarshal` into `[]string`: a JSON array of strings
(`null` leaves the slice nil, which the callers treat as empty). -/
def parseStringList (s : String) : Option (List String) :=
  if goTrimSpace s == "null" then some [] else
  match skipWs s.data with
  | '[' :: rest =>
    match skipWs rest with
    | ']' :: tail => if (skipWs tail).isEmpty then some [] else none
    | rest2 =>
      match parseStringItems rest2 (rest2.length + 1) with
      | none => none
      | some (l, r) =>
        match skipWs r with
        | ']' :: tail => if (skipWs tail).isEmpty then some l else none
        | _ => none
  | _ => none

/-- Parse one `"key" : "value"` pair. -/
def parsePair (cs : List Char) : Option ((String × String) × List Char) :=
  match parseStringLit (skipWs cs) with
  | none => none
  | some (k, rest) =>
    match skipWs rest with
    | ':' :: rest2 =>
      match parseStringLit (skipWs rest2) with
      | none => none
      | some (v, rest3) => some ((k, v), rest3)
    | _ => none

/-- Parse a non-empty comma-separated sequence of string pairs. -/
def parsePairs : List Char → Nat → Option (List (String × String) × List Char)
  | _, 0 => none
  | cs, fuel + 1 =>
    match parsePair cs with
    | none => none
    | some (p, rest) =>
      match skipWs rest with
      | ',' :: rest2 =>
        match parsePairs rest2 fuel with
        | none => none
        | some (l, r) => some (p :: l, r)
      | r => some ([p], r)

/-- Parse a flat JSON object whose values are strings. -/
def parseFlatObject (s : String) : Option (List (String × String)) :=
  match skipWs s.data with
  | '\x7b' :: rest =>
    match skipWs rest with
    | '\x7d' :: tail => if (skipWs tail).isEmpty then some [] else none
    | rest2 =>
      match parsePairs rest2 (rest2.length + 1) with
      | none => none
      | some (ps, r) =>
        match skipWs r with
        | '\x7d' :: tail => if (skipWs tail).isEmpty then some ps else none
        | _ => none
  | _ => none

/-- Go's struct field match for JSON keys is case-insensitive; a missing
field keeps its zero value `""`. -/
def fieldGet (ps : List (String × String)) (name : String) : String :=
  match ps.find? (fun p => lowerStr p.1 == lowerStr name) with
  | some p => p.2
  | none => ""

/-- `json.Unmarshal` into `tokenBlob`: returns the `access_token` field
of the object (`""` when absent), `none` on malformed JSON. -/
def unmarshalTokenBlob (s : String) : Option String :=
  if goTrimSpace s == "null" then some "" else
  match parseFlatObject s with
  | none => none
  | some ps => some (fieldGet ps "access_token")

/-! ## DockerConfig -/

/-- `DockerConfigEntry` from the source. -/
structure DockerConfigEntry where
  username : String
  password : String
  email : String
deriving DecidableEq, Repr

/-- A Go `DockerConfig` value, i.e. a `map[string]DockerConfigEntry`.  A
Go map variable can be the nil map, distinct from an allocated empty map;
`null` models nil and `table l` an allocated map with entries `l` (unique
keys, insertion order). -/
inductive DockerConfig where
  | null
  | table (entries : List (String × DockerConfigEntry))
deriving DecidableEq, Repr

/-- Go map assignment `m[k] = v` on the entry list: overwrite the entry
for `k` when present, append otherwise. -/
def mapSet (l : List (String × DockerConfigEntry)) (k : String)
    (v : DockerConfigEntry) : List (String × DockerConfigEntry) :=
  if l.any (fun p => p.1 == k) then
    l.map (fun p => if p.1 == k then (k, v) else p)
  else
    l ++ [(k, v)]

/-- One credential-entry object `{"Username": …, "Password": …,
"Email": …}` (fields case-insensitive, missing fields zero). -/
def parseEntryObject (cs : List Char) : Option (DockerConfigEntry × List Char) :=
  match skipWs cs with
  | '\x7b' :: rest =>
    match skipWs rest with
    | '\x7d' :: tail => some (⟨"", "", ""⟩, tail)
    | rest2 =>
      match parsePairs rest2 (rest2.length + 1) with
      | none => none
      | some (ps, r) =>
        match skipWs r with
        | '\x7d' :: tail =>
          some (⟨fieldGet ps "Username", fieldGet ps "Password",
                 fieldGet ps "Email"⟩, tail)
        | _ => none
  | _ => none

/-- A non-empty comma-separated sequence of `"host": entry` items. -/
def parseConfigItems :
    List Char → Nat → Option (List (String × DockerConfigEntry) × List Char)
  | _, 0 => none
  | cs, fuel + 1 =>
    match parseStringLit (skipWs cs) with
    | none => none
    | some (k, rest) =>
      match skipWs rest with
      | ':' :: rest2 =>
        match parseEntryObject rest2 with
        | none => none
        | some (e, r) =>
          match skipWs r with
          | ',' :: r2 =>
            match parseConfigItems r2 fuel with
            | none => none
            | some (l, rr) => some ((k, e) :: l, rr)
          | r2 => some ([(k, e)], r2)
      | _ => none

/-- `json.Unmarshal` into `DockerConfig`: a JSON object mapping each host
to a credential-entry object.  Unmarshalling `null` into a map leaves the
map nil with no error; duplicate keys follow map-assignment order. -/
def parseDockerConfigJSON (s : String) : Option DockerConfig :=
  if goTrimSpace s == "null" then some DockerConfig.null else
  match skipWs s.data with
  | '\x7b' :: rest =>
    match skipWs rest with
    | '\x7d' :: tail =>
      if (skipWs tail).isEmpty then some (DockerConfig.table []) else none
    | rest2 =>
      match parseConfigItems rest2 (rest2.length + 1) with
      | none => none
      | some (items, r) =>
        match skipWs r with
        | '\x7d' :: tail =>
          if (skipWs tail).isEmpty then
            some (DockerConfig.table
              (items.foldl (fun acc kv => mapSet acc kv.1 kv.2) []))
          else none
        | _ => none
  | _ => none

/-! ## Reading a docker config document -/

/-- The only error `readDockerConfigFileFromBytes` produces:
`errors.New ("error occurred while trying to unmarshal json")`. -/
inductive ConfigReadError where
  | unmarshalFailure
deriving DecidableEq, Repr

/-- `readDockerConfigFileFromBytes` from the source: on an unmarshal
error it returns `(nil, error)`, otherwise the unmarshalled map. -/
def readDockerConfigFileFromBytes (contents : String) :
    DockerConfig × Option ConfigReadError :=
  match parseDockerConfigJSON contents with
  | none => (DockerConfig.null, some .unmarshalFailure)
  | some cfg => (cfg, none)

/-- `ReadDockerConfigFileFromURL` from the source, with the request it
issues recorded.  The source reads

  if contents, err := readURL(url, client, header); err == nil {
    return readDockerConfigFileFromBytes(contents)
  }
  return nil, err

where the `err` bound by the `if` initializer shadows the named return
value `err`; the `err` of the final return is therefore the named return
value, still at its zero value `nil`, so a `readURL` failure comes back
as `(nil, nil)` — a nil map with no error. -/
def ReadDockerConfigFileFromURL (w : World) (url : String)
    (header : Option HTTPHeader) :
    (DockerConfig × Option ConfigReadError) × List HTTPRequest :=
  (match readURL w url header with
   | .ok contents => readDockerConfigFileFromBytes contents
   | .error _ => (DockerConfig.null, none),
   [⟨url, header⟩])

/-! ## The three credential providers -/

/-- `ProvideDockerConfigKey` (the key-based provider's `Provide`).  The
`image` argument is accepted and unused, as in the source.  Returns the
config together with the requests issued. -/
def ProvideDockerConfigKey (w : World) (image : String) :
    DockerConfig × List HTTPRequest :=
  match ReadDockerConfigFileFromURL w dockerConfigKey (some metadataHeader) with
  | ((cfg, none), reqs) => (cfg, reqs)
  | ((_, some _), reqs) => (DockerConfig.table [], reqs)

/-- `ProvideDockerConfigURLKey` (the URL-key provider's `Provide`): read
the url stored under the `google-dockercfg-url` attribute; when it starts
with the literal `"http"` fetch the document there with a nil header,
otherwise log `Unsupported URL scheme` and fall through to the empty
config. -/
def ProvideDockerConfigURLKey (w : World) (image : String) :
    DockerConfig × List HTTPRequest :=
  match readURL w dockerConfigURLKey (some metadataHeader) with
  | .error _ => (DockerConfig.table [], [⟨dockerConfigURLKey, some metadataHeader⟩])
  | .ok url =>
    if goHasPre url "http" then
      match ReadDockerConfigFileFromURL w url none with
      | ((cfg, none), reqs) =>
        (cfg, ⟨dockerConfigURLKey, some metadataHeader⟩ :: reqs)
      | ((_, some _), reqs) =>
        (DockerConfig.table [], ⟨dockerConfigURLKey, some metadataHeader⟩ :: reqs)
    else
      (DockerConfig.table [], [⟨dockerConfigURLKey, some metadataHeader⟩])

/-- `ProvideContainerRegistry` (the token provider's `Provide`): fetch
the access-token blob and the identity email, parse the token, and map
every entry of `containerRegistryUrls` to the one entry
`{Username: "_token", Password: token, Email: email}`; every failure
returns the `cfg := DockerConfig{}` allocated at the top. -/
def ProvideContainerRegistry (w : World) (image : String) :
    DockerConfig × List HTTPRequest :=
  match readURL w metadataToken (some metadataHeader) with
  | .error _ => (DockerConfig.table [], [⟨metadataToken, some metadataHeader⟩])
  | .ok tokenJSONBlob =>
    match readURL w metadataEmail (some metadataHeader) with
    | .error _ =>
      (DockerConfig.table [],
       [⟨metadataToken, some metadataHeader⟩, ⟨metadataEmail, some metadataHeader⟩])
    | .ok email =>
      match unmarshalTokenBlob tokenJSONBlob with
      | none =>
        (DockerConfig.table [],
         [⟨metadataToken, some metadataHeader⟩, ⟨metadataEmail, some metadataHeader⟩])
      | some accessToken =>
        (DockerConfig.table
          (containerRegistryUrls.foldl
            (fun cfg k => mapSet cfg k ⟨"_token", accessToken, email⟩) []),
         [⟨metadataToken, some metadataHeader⟩, ⟨metadataEmail, some metadataHeader⟩])

/-! ## Enablement detection -/

/-- Outcome of one local probe: reading `gceProductNameFile`, or running
`wmic computersystem get model` on Windows. -/
inductive ProbeResult where
  | failure
  | success (data : String)
deriving DecidableEq, Repr

/-- The local environment `OnGCEVM` probes: the value of `runtime.GOOS`
and the outcome of the probe each branch would perform. -/
structure HostProbe where
  goos : String
  wmicModelOutput : ProbeResult
  productNameContents : ProbeResult
deriving Repr

/-- `OnGCEVM` from the source: on Windows, run the wmic command, trim the
whole output, split on `"\r\n"` and take the second field; elsewhere read
the product-name file and trim it.  Compare against the two accepted
names; any probe failure is `false`. -/
def OnGCEVM (p : HostProbe) : Bool :=
  if p.goos == "windows" then
    match p.wmicModelOutput with
    | .failure => false
    | .success data =>
      let fields := goSplit (goTrimSpace data) "\r\n"
      if fields.length ≠ 2 then false
      else
        let name := fields.getD 1 ""
        name == "Google" || name == "Google Compute Engine"
  else
    match p.productNameContents with
    | .failure => false
    | .success data =>
      let name := goTrimSpace data
      name == "Google" || name == "Google Compute Engine"

/-- The identity value `OnGCEVM` ends up comparing, `none` when the probe
fails or the wmic output does not have exactly two lines. -/
def probedName (p : HostProbe) : Option String :=
  if p.goos == "windows" then
    match p.wmicModelOutput with
    | .failure => none
    | .success data =>
      let fields := goSplit (goTrimSpace data) "\r\n"
      if fields.length ≠ 2 then none else some (fields.getD 1 "")
  else
    match p.productNameContents with
    | .failure => none
    | .success data => some (goTrimSpace data)

/-- `HasStorageScope` from the source.  The two
`runWithBackoff(func() { readURL(...) })` calls block until the metadata
service answers successfully; `saListing` and `scopesJSON` are the bodies
those calls eventually return (the service-accounts directory listing and
the scopes document of the default service account). -/
def HasStorageScope (saListing scopesJSON : String) : Bool :=
  let defaultServiceAccountExists :=
    (goSplit saListing "\n").any (fun sa => goTrimSpace sa == defaultServiceAccount)
  if !defaultServiceAccountExists then false
  else
    match parseStringList scopesJSON with
    | none => false
    | some scopes =>
      scopes.any (fun v =>
        goHasPre v storageScopePrefix || goHasPre v cloudPlatformScopePrefix)

/-! ## runWithBackoff (the Backoff Retrier) -/

/-- `maxBackoff = time.Minute`, in milliseconds. -/
def maxBackoff : Nat := 60000

/-- The loop of `runWithBackoff`: `f i` is the outcome of the `i`-th
invocation of the operation, `backoff` the current delay in milliseconds
and `slept` the milliseconds slept so far.  The source loops forever; the
`fuel` argument bounds the unrolling, and `none` stands for not returning
within `fuel` attempts.  On failure the source sleeps `backoff`, doubles
it and caps it at `maxBackoff`. -/
def runWithBackoffAux (f : Nat → Except Unit String) :
    Nat → Nat → Nat → Nat → Option (String × Nat)
  | _, _, _, 0 => none
  | backoff, slept, i, fuel + 1 =>
    match f i with
    | .ok value => some (value, slept)
    | .error _ =>
      runWithBackoffAux f
        (if backoff * 2 > maxBackoff then maxBackoff else backoff * 2)
        (slept + backoff) (i + 1) fuel

/-- `runWithBackoff f` from the source, starting from
`backoff = 100 * time.Millisecond`: the returned value and the total time
slept (in milliseconds) before it was returned. -/
def runWithBackoff (f : Nat → Except Unit String) (fuel : Nat) :
    Option (String × Nat) :=
  runWithBackoffAux f 100 0 0 fuel

/-! ## The caching wrapper -/

/-- Modelled from the spec: the cache state of
`credentialprovider.CachingDockerConfigProvider`, with which the
registration code of the excerpt wraps the two document-based providers.
Its implementation lies outside the excerpt; spec §4.5 gives the state
machine: a cached config and the instant it expires (`CacheEntry =
{CredentialSet, expiresAt}`), starting with no valid entry. -/
structure CacheState where
  cacheDockerConfig : DockerConfig
  expiration : Nat
deriving DecidableEq, Repr

/-- The `Empty` cache state: nothing cached, already expired. -/
def initialCacheState : CacheState :=
  ⟨DockerConfig.table [], 0⟩

/-- Modelled from the spec: one `Provide` call through the caching
wrapper at instant `now`.  Spec §4.5 and §5 require per-key mutual
exclusion (single-flight), so concurrent calls execute as consecutive
atomic steps of this function.  A `Valid` entry (`now` before the
expiry) is served without I/O; otherwise the wrapped provider is fetched
once, cached, and the expiry set `ttl` ahead.  Returns the config, the
new state, and whether an underlying fetch happened. -/
def cachingProvide (fetch : Nat → DockerConfig) (ttl : Nat) (s : CacheState)
    (now : Nat) : DockerConfig × CacheState × Bool :=
  if now < s.expiration then
    (s.cacheDockerConfig, s, false)
  else
    let cfg := fetch now
    (cfg, ⟨cfg, now + ttl⟩, true)

/-- Run a sequence of `Provide` calls (instants in order) through the
caching wrapper, collecting each call's result and whether it fetched. -/
def cachingRun (fetch : Nat → DockerConfig) (ttl : Nat) :
    CacheState → List Nat → List (DockerConfig × Bool)
  | _, [] => []
  | s, t :: ts =>
    match cachingProvide fetch ttl s t with
    | (cfg, s2, fetched) => (cfg, fetched) :: cachingRun fetch ttl s2 ts

/-! ## Concrete environments used by the witnesses and counterexamples -/

/-- A world in which every fetch fails at the transport. -/
def wAllFail : World :=
  ⟨fun _ _ => FetchResult.transportError⟩

/-- A world serving a token blob for `T` and the email `e@x`. -/
def wC2 : World :=
  ⟨fun u _ =>
    if u == metadataToken then .response 200 "\x7b\"access_token\":\"T\"\x7d"
    else if u == metadataEmail then .response 200 "e@x"
    else .transportError⟩

/-- A world answering every fetch with HTTP 404. -/
def wStatus404 : World :=
  ⟨fun _ _ => .response 404 "not found"⟩

/-- A world whose `google-dockercfg-url` attribute holds a url that
starts with the literal `http` but has scheme `httpz`; the fetch of that
url itself fails at the transport (as Go's transport does for an
unsupported scheme). -/
def wC6 : World :=
  ⟨fun u _ =>
    if u == dockerConfigURLKey then .response 200 "httpz://x"
    else .transportError⟩

/-- A world whose `google-dockercfg-url` attribute holds a `gs://` url. -/
def wGs : World :=
  ⟨fun u _ =>
    if u == dockerConfigURLKey then .response 200 "gs://bucket/cfg"
    else .transportError⟩

/-- A body of exactly `maxReadLength` bytes. -/
def longBody : String :=
  String.mk (List.replicate maxReadLength 'a')

/-- A world answering every fetch with HTTP 200 and a body of exactly
`maxReadLength` bytes. -/
def wCap : World :=
  ⟨fun _ _ => .response 200 longBody⟩

/-! ## Helper lemmas -/

/-- Doubling a capped backoff and capping again is capping the double. -/
theorem capDouble (x : Nat) :
    (if (min x maxBackoff) * 2 > maxBackoff then maxBackoff
     else (min x maxBackoff) * 2) = min (x * 2) maxBackoff := by
  simp only [maxBackoff, Nat.min_def]
  split_ifs <;> omega

/-- Invariant of the backoff loop: starting at attempt `i` with backoff
`min (100 * 2 ^ m) maxBackoff` and `k` failures before the success, the
loop returns the success value after sleeping the `k` capped delays. -/
theorem runWithBackoffAux_ok (f : Nat → Except Unit String) (v : String) :
    ∀ (k i m slept fuel : Nat), k < fuel →
      (∀ j, j < k → f (i + j) = .error ()) → f (i + k) = .ok v →
      runWithBackoffAux f (min (100 * 2 ^ m) maxBackoff) slept i fuel
        = some (v, slept + ∑ j ∈ Finset.range k, min (100 * 2 ^ (m + j)) maxBackoff) := by
  intro k
  induction k with
  | zero =>
    intro i m slept fuel hfuel _ hsucc
    match fuel, hfuel with
    | fuel + 1, _ =>
      simp only [runWithBackoffAux]
      rw [Nat.add_zero] at hsucc
      rw [hsucc]
      simp
  | succ k ih =>
    intro i m slept fuel hfuel hfail hsucc
    match fuel, hfuel with
    | fuel + 1, hfuel =>
      have h0 : f i = .error () := by
        have := hfail 0 (Nat.succ_pos k)
        simpa using this
      simp only [runWithBackoffAux, h0]
      rw [capDouble (100 * 2 ^ m)]
      rw [show 100 * 2 ^ m * 2 = 100 * 2 ^ (m + 1) by rw [pow_succ]; ring]
      have hih := ih (i + 1) (m + 1) (slept + min (100 * 2 ^ m) maxBackoff) fuel
        (Nat.lt_of_succ_lt_succ hfuel)
        (fun j hj => by
          have := hfail (j + 1) (Nat.succ_lt_succ hj)
          rw [show i + 1 + j = i + (j + 1) by omega]
          exact this)
        (by rw [show i + 1 + k = i + (k + 1) by omega]; exact hsucc)
      rw [hih]
      have hsum : ∑ j ∈ Finset.range (k + 1), min (100 * 2 ^ (m + j)) maxBackoff
          = (∑ j ∈ Finset.range k, min (100 * 2 ^ (m + 1 + j)) maxBackoff)
            + min (100 * 2 ^ m) maxBackoff := by
        rw [Finset.sum_range_succ']
        have hshift : ∀ j ∈ Finset.range k,
            min (100 * 2 ^ (m + (j + 1))) maxBackoff
              = min (100 * 2 ^ (m + 1 + j)) maxBackoff := fun j _ => by
          rw [show m + (j + 1) = m + 1 + j by omega]
        rw [Finset.sum_congr rfl hshift]
        simp
      rw [hsum]
      have harith : slept + min (100 * 2 ^ m) maxBackoff
          + ∑ j ∈ Finset.range k, min (100 * 2 ^ (m + 1 + j)) maxBackoff
          = slept + ((∑ j ∈ Finset.range k, min (100 * 2 ^ (m + 1 + j)) maxBackoff)
            + min (100 * 2 ^ m) maxBackoff) := by ring
      rw [harith]

/-! ## The claims -/

/-- C1: the claim says every fetch or parse failure of the three
providers yields an empty, never nil, `CredentialSet`.  The code violates
this: when the fetch of the `google-dockercfg` metadata key fails, the
inner `err` of `ReadDockerConfigFileFromURL` shadows its named return
value, the failure comes back as `(nil, nil)`, and `ProvideDockerConfigKey`
takes its non-error branch and returns the nil map instead of the
`DockerConfig{}` its error branch would have produced. -/
theorem provideDockerConfigKey_nil_on_fetch_failure :
    (ProvideDockerConfigKey wAllFail "image").1 = DockerConfig.null
    ∧ DockerConfig.null ≠ DockerConfig.table [] := by
  decide

/-- C2: whenever the token endpoint yields a body whose access token
parses to `tok` and the email endpoint yields `email`, the container
registry provider returns exactly the four fixed host patterns, each
mapped to the one entry `{username := "_token", password := tok,
email := email}`. -/
theorem provideContainerRegistry_fixed_hosts (w : World)
    (image tokenBody email tok : String)
    (htok : readURL w metadataToken (some metadataHeader) = .ok tokenBody)
    (hmail : readURL w metadataEmail (some metadataHeader) = .ok email)
    (hparse : unmarshalTokenBlob tokenBody = some tok) :
    (ProvideContainerRegistry w image).1 =
      DockerConfig.table
        [("container.cloud.google.com", ⟨"_token", tok, email⟩),
         ("gcr.io", ⟨"_token", tok, email⟩),
         ("*.gcr.io", ⟨"_token", tok, email⟩),
         ("*.pkg.dev", ⟨"_token", tok, email⟩)] := by
  simp only [ProvideContainerRegistry, htok, hmail, hparse]
  rfl

/-- C2 witness: the token body `{"access_token":"T"}` and email `e@x`
produce the four fixed patterns mapped to `{_token, T, e@x}`. -/
theorem provideContainerRegistry_fixed_hosts_witness :
    (ProvideContainerRegistry wC2 "any-image").1 =
      DockerConfig.table
        [("container.cloud.google.com", ⟨"_token", "T", "e@x"⟩),
         ("gcr.io", ⟨"_token", "T", "e@x"⟩),
         ("*.gcr.io", ⟨"_token", "T", "e@x"⟩),
         ("*.pkg.dev", ⟨"_token", "T", "e@x"⟩)] :=
  provideContainerRegistry_fixed_hosts wC2 "any-image"
    "\x7b\"access_token\":\"T\"\x7d" "e@x" "T"
    (by decide) (by decide) (by decide)

/-- C3: `HasStorageScope` is false when no line of the service-account
listing trims to `default/`; it is false when the scope document fails to
parse; and when the document parses, given the marker is present it is
true exactly when some scope starts with the storage or the
cloud-platform prefix (so an empty or unrelated scope list gives false). -/
theorem hasStorageScope_spec (sa sc : String) :
    ((goSplit sa "\n").any (fun l => goTrimSpace l == defaultServiceAccount) = false →
      HasStorageScope sa sc = false)
  ∧ (parseStringList sc = none → HasStorageScope sa sc = false)
  ∧ (∀ scopes, parseStringList sc = some scopes →
      (HasStorageScope sa sc = true ↔
        (goSplit sa "\n").any (fun l => goTrimSpace l == defaultServiceAccount) = true
        ∧ ∃ v ∈ scopes,
            goHasPre v storageScopePrefix = true
            ∨ goHasPre v cloudPlatformScopePrefix = true)) := by
  refine ⟨?_, ?_, ?_⟩
  · intro h
    simp only [HasStorageScope, h]
    rfl
  · intro h
    simp only [HasStorageScope, h]
    cases (goSplit sa "\n").any (fun l => goTrimSpace l == defaultServiceAccount) <;> rfl
  · intro scopes h
    simp only [HasStorageScope, h]
    cases hd : (goSplit sa "\n").any (fun l => goTrimSpace l == defaultServiceAccount) with
    | false => simp
    | true => simp [List.any_eq_true]

/-- C3 witness: listing containing the default marker and a storage
scope give true. -/
theorem hasStorageScope_spec_witness :
    HasStorageScope "default/\n"
      "[\"https://www.googleapis.com/auth/devstorage.read_only\"]" = true :=
  ((hasStorageScope_spec "default/\n"
      "[\"https://www.googleapis.com/auth/devstorage.read_only\"]").2.2
    ["https://www.googleapis.com/auth/devstorage.read_only"] (by decide)).mpr
    (by decide)

/-- C4: an operation failing `k` times and then succeeding with `v`
makes `runWithBackoff` return `v` after sleeping the sum of the first `k`
delays, each `min (100ms * 2 ^ i) 60s`. -/
theorem runWithBackoff_retries_then_returns (f : Nat → Except Unit String)
    (k fuel : Nat) (v : String)
    (hfail : ∀ j, j < k → f j = .error ())
    (hsucc : f k = .ok v) (hfuel : k < fuel) :
    runWithBackoff f fuel
      = some (v, ∑ j ∈ Finset.range k, min (100 * 2 ^ j) maxBackoff) := by
  have h := runWithBackoffAux_ok f v k 0 0 0 fuel hfuel
    (fun j hj => by simpa using hfail j hj) (by simpa using hsucc)
  rw [show min (100 * 2 ^ 0) maxBackoff = 100 by decide] at h
  simpa [runWithBackoff] using h

/-- C4 witness: two failures then success returns after
100ms + 200ms = 300ms of sleep. -/
theorem runWithBackoff_retries_then_returns_witness :
    runWithBackoff (fun i => if i < 2 then .error () else .ok "v") 3
      = some ("v", 300) := by
  have h := runWithBackoff_retries_then_returns
    (fun i => if i < 2 then .error () else .ok "v") 2 3 "v"
    (by decide) (by decide) (by decide)
  rw [h]
  norm_num [Finset.sum_range_succ, maxBackoff]

/-- C5: once a response arrives, `readURL` fails with the typed
`HTTPError` carrying the exact status and url whenever the status is not
200, fails with the read-limit error when the body reaches the cap, and
otherwise returns the raw body. -/
theorem readURL_typed_failures (w : World) (url : String)
    (h : Option HTTPHeader) (status : Nat) (body : String)
    (hresp : w.fetch url h = .response status body) :
    (status ≠ 200 → readURL w url h = .error (.httpStatus status url))
  ∧ (status = 200 → maxReadLength ≤ body.length →
      readURL w url h = .error .readLimitReached)
  ∧ (status = 200 → body.length < maxReadLength → readURL w url h = .ok body) := by
  refine ⟨fun hne => ?_, fun h200 hle => ?_, fun h200 hlt => ?_⟩
  · simp only [readURL, hresp]
    rw [if_pos hne]
  · subst h200
    simp only [readURL, hresp]
    rw [if_neg (by simp), if_pos hle]
  · subst h200
    simp only [readURL, hresp]
    rw [if_neg (by simp), if_neg (by omega)]

/-- C5 witness: a 404 yields the typed status error with code and url. -/
theorem readURL_typed_failures_witness :
    readURL wStatus404 "http://u" none = .error (.httpStatus 404 "http://u") :=
  (readURL_typed_failures wStatus404 "http://u" none 404 "not found" rfl).1
    (by decide)

/-- C6 counterexample: the url `httpz://x` read from the metadata key
does not begin with an http(s) scheme, yet the provider does fetch the
external document at it (a second request, and the run's result is the
nil map rather than the empty set the claim requires for a non-http(s)
scheme). -/
theorem provideDockerConfigURLKey_scheme_counterexample :
    goHasPre "httpz://x" "http://" = false
    ∧ goHasPre "httpz://x" "https://" = false
    ∧ readURL wC6 dockerConfigURLKey (some metadataHeader) = .ok "httpz://x"
    ∧ (ProvideDockerConfigURLKey wC6 "image").2
        = [⟨dockerConfigURLKey, some metadataHeader⟩, ⟨"httpz://x", none⟩]
    ∧ (ProvideDockerConfigURLKey wC6 "image").1 ≠ DockerConfig.table [] := by
  decide

/-- C6 (amended): the URL-key provider fetches the external document
exactly when the fetched url begins with the literal prefix `http` (with
no further scheme validation), and that external request carries no
metadata header; when the url does not begin with `http`, no external
fetch happens and the empty set is returned. -/
theorem provideDockerConfigURLKey_http_gate (w : World) (image u : String)
    (hu : readURL w dockerConfigURLKey (some metadataHeader) = .ok u) :
    (goHasPre u "http" = true →
      (ProvideDockerConfigURLKey w image).2
        = [⟨dockerConfigURLKey, some metadataHeader⟩, ⟨u, none⟩])
  ∧ (goHasPre u "http" = false →
      ProvideDockerConfigURLKey w image
        = (DockerConfig.table [], [⟨dockerConfigURLKey, some metadataHeader⟩])) := by
  constructor
  · intro hp
    simp only [ProvideDockerConfigURLKey, hu, hp, if_true]
    rcases hR : ReadDockerConfigFileFromURL w u none with ⟨⟨cfg, err⟩, reqs⟩
    have hreqs : reqs = [⟨u, none⟩] := by
      have h0 : (ReadDockerConfigFileFromURL w u none).2 = [⟨u, none⟩] := rfl
      rw [hR] at h0
      exact h0
    cases err <;> simp [hreqs]
  · intro hp
    simp only [ProvideDockerConfigURLKey, hu, hp]
    rfl

/-- C6 witness: a `gs://` url is not fetched and yields the empty set
with only the one metadata request issued. -/
theorem provideDockerConfigURLKey_http_gate_witness :
    ProvideDockerConfigURLKey wGs "image"
      = (DockerConfig.table [], [⟨dockerConfigURLKey, some metadataHeader⟩]) :=
  (provideDockerConfigURLKey_http_gate wGs "image" "gs://bucket/cfg"
    (by decide)).2 (by decide)

/-- C7: `OnGCEVM` returns true exactly when the probed identity value
exists and equals one of the two accepted literal names; in particular
every probe failure (including a wmic output without exactly two lines)
gives false. -/
theorem onGCEVM_two_names (p : HostProbe) :
    OnGCEVM p = true ↔
      probedName p = some "Google" ∨ probedName p = some "Google Compute Engine" := by
  obtain ⟨goos, wmic, prod⟩ := p
  simp only [OnGCEVM, probedName]
  by_cases hg : (goos == "windows") = true
  · simp only [hg, if_true]
    cases wmic with
    | failure => simp
    | success data =>
      by_cases hl : (goSplit (goTrimSpace data) "\r\n").length ≠ 2
      · simp [hl]
      · simp [hl]
  · simp only [hg, if_false, Bool.false_eq_true]
    cases prod with
    | failure => simp
    | success data => simp

/-- C8 (spec-modelled): with the per-key mutual exclusion the spec
requires, two calls racing on an empty entry produce exactly one
underlying fetch — the second caller is served the first fetch's result —
and a call after the TTL has passed produces exactly one more fetch. -/
theorem cachingProvide_single_flight (fetch : Nat → DockerConfig)
    (ttl t1 t2 t3 : Nat)
    (h21 : t1 ≤ t2) (h2 : t2 < t1 + ttl) (h3 : t1 + ttl ≤ t3) :
    cachingRun fetch ttl initialCacheState [t1, t2, t3]
      = [(fetch t1, true), (fetch t1, false), (fetch t3, true)] := by
  simp [cachingRun, cachingProvide, initialCacheState, h2, Nat.not_lt.mpr h3]

/-- C8 witness: two calls at instant 0 with TTL 60 fetch once; a third
call at instant 60 fetches again. -/
theorem cachingProvide_single_flight_witness :
    cachingRun (fun _ => DockerConfig.table []) 60 initialCacheState [0, 0, 60]
      = [(DockerConfig.table [], true), (DockerConfig.table [], false),
         (DockerConfig.table [], true)] :=
  cachingProvide_single_flight (fun _ => DockerConfig.table []) 60 0 0 60
    (by decide) (by decide) (by decide)

/-- C9: none of the three providers reads its image argument: against
the same environment, any two image strings give identical results
(config and requests alike). -/
theorem provide_ignores_image (w : World) (i1 i2 : String) :
    ProvideDockerConfigKey w i1 = ProvideDockerConfigKey w i2
    ∧ ProvideDockerConfigURLKey w i1 = ProvideDockerConfigURLKey w i2
    ∧ ProvideContainerRegistry w i1 = ProvideContainerRegistry w i2 :=
  ⟨rfl, rfl, rfl⟩

/-- C10: every body `readURL` returns is strictly shorter than
`maxReadLength`, and a 200 response whose body is exactly
`maxReadLength` bytes long fails with the read-limit error even though
the stream ends at the cap. -/
theorem readURL_cap (w : World) (url : String) (h : Option HTTPHeader) :
    (∀ body, readURL w url h = .ok body → body.length < maxReadLength)
  ∧ (∀ body, w.fetch url h = .response 200 body → body.length = maxReadLength →
      readURL w url h = .error .readLimitReached) := by
  constructor
  · intro body hok
    cases hfetch : w.fetch url h with
    | transportError =>
      simp only [readURL, hfetch] at hok
      exact Except.noConfusion hok
    | response st b =>
      simp only [readURL, hfetch] at hok
      by_cases h200 : st ≠ 200
      · rw [if_pos h200] at hok; cases hok
      · rw [if_neg h200] at hok
        by_cases hle : maxReadLength ≤ b.length
        · rw [if_pos hle] at hok; cases hok
        · rw [if_neg hle] at hok
          cases hok
          omega
  · intro body hf hlen
    simp only [readURL, hf]
    rw [if_neg (by simp), if_pos (by omega)]

/-- C10 witness: a 200 response of exactly `maxReadLength` bytes fails
with the read-limit error. -/
theorem readURL_cap_witness :
    readURL wCap "http://u" none = .error .readLimitReached :=
  (readURL_cap wCap "http://u" none).2 longBody rfl
    (by simp [longBody])

end Gcpcredentials
